import Mathlib

/-!
A shallow embedding of `src/librbd/AioObjectRequest.cc` (the per-object
asynchronous I/O request engine of librbd).  Requests are modelled as pure
records; each method of the C++ classes becomes a Lean function from the
request (plus an immutable view of the `ImageCtx` metadata and the copyup
registry) to the updated request, the updated registry and a list of
observable effects (object-store submissions, work-queue callbacks, map
updates, deliveries to the completion sink, destruction).

External collaborators (`ImageCtx::get_parent_overlap`,
`ImageCtx::prune_parent_extents`, `ObjectMap::object_may_exist`,
`ObjectMap::update_required`, `Striper::extent_to_file`,
`ImageCtx::get_read_flags`) are not part of the source file; they are
modelled as abstract function fields of `ImageCtxView`, so every theorem
quantifies over their behaviour.

The mutual recursion `complete → should_complete → complete` (the write
GUARD/COPYUP error path re-enters `complete` with state ERROR) and
`send_write ↔ handle_write_guard` is expressed with an explicit fuel
parameter; running out of fuel yields `none`.  Debug-build `assert`s in the
source are modelled as no-ops.
-/

namespace Librbd

/-- errno value of ENOENT; the source uses `-ENOENT` as a status. -/
def ENOENT : Int := 2

/-- `CEPH_NOSNAP = (u64)(-2)`: sentinel snap id denoting the head image. -/
def CEPH_NOSNAP : Nat := 18446744073709551614

/-- Object-map states (from the cluster headers; values are opaque here). -/
def OBJECT_NONEXISTENT : Nat := 0

def OBJECT_EXISTS : Nat := 1

def OBJECT_PENDING : Nat := 2

/-- An ordered sequence of `(image_offset, length)` pairs. -/
abbrev Extents := List (Nat × Nat)

/-- One mutation appended to a `librados::ObjectWriteOperation` batch. -/
inductive WriteOp where
  | assert_exists : WriteOp
  | set_alloc_hint (expected_object_size expected_write_size : Nat) : WriteOp
  | write_full : WriteOp
  | write (off : Nat) : WriteOp
  | zero (off len : Nat) : WriteOp
  | truncate (off : Nat) : WriteOp
  | remove : WriteOp
  | remove_with_snaps : WriteOp
  | set_op_flags2 (flags : Int) : WriteOp
deriving DecidableEq

/-- Observable actions a request performs on its collaborators. -/
inductive Effect where
  /-- `data_ctx.aio_operate` with a read op: offset, length, sparse?,
  `set_op_flags2` argument and the snap-aware read flags. -/
  | SubmitRead (off len : Nat) (sparse : Bool) (op_flags read_flags : Int) : Effect
  /-- `op_work_queue->queue(callback, status)`. -/
  | QueueCallback (status : Int) : Effect
  /-- `data_ctx.aio_operate` with the accumulated write batch. -/
  | SubmitWriteOp (ops : List WriteOp) (snap_seq : Nat) (snaps : List Nat) : Effect
  /-- a freshly created `CopyupRequest` had its `send()` invoked. -/
  | CopyupSend (object_no : Nat) : Effect
  /-- `AioImageRequest<>::aio_read` on the parent image. -/
  | ReadFromParent (extents : Extents) : Effect
  /-- `object_map->aio_update(object_no, new_state, expected, callback)`. -/
  | MapUpdate (object_no new_state : Nat) (expected : Option Nat) : Effect
  /-- `m_completion->complete(status)`: delivery to the completion sink. -/
  | Deliver (status : Int) : Effect
  /-- `delete this`. -/
  | Destroy : Effect
deriving DecidableEq

/-- A coalesced copyup job (`librbd::CopyupRequest`), keyed by object_no in
the registry.  `pending` counts the write requests appended via
`append_request` that must observe the job's terminal result. -/
structure CopyupRequest where
  oid : String
  object_no : Nat
  parent_extents : Extents
  pending : Nat
deriving DecidableEq

/-- `ImageCtx::copyup_list`: a `map<uint64_t, CopyupRequest*>`, modelled as an
association list whose keys are unique in every reachable registry. -/
abbrev Registry := List (Nat × CopyupRequest)

/-- Immutable view of the `ImageCtx` metadata consulted by a request, with the
collaborators outside this source file as abstract functions. -/
structure ImageCtxView where
  clone_copy_on_read : Bool
  read_only : Bool
  /-- `exclusive_lock != nullptr`. -/
  exclusive_lock_present : Bool
  /-- `exclusive_lock->is_lock_owner()`. -/
  is_lock_owner : Bool
  /-- `object_map != nullptr`. -/
  object_map_present : Bool
  /-- `object_map->object_may_exist(object_no)`. -/
  object_may_exist : Nat → Bool
  /-- `object_map->update_required(object_no, new_state)`. -/
  update_required : Nat → Nat → Bool
  /-- `parent != NULL`. -/
  parent_present : Bool
  /-- `get_parent_overlap(snap_id, &overlap)`: returns `(r, overlap)`. -/
  get_parent_overlap : Nat → Int × Nat
  /-- `prune_parent_extents(extents, overlap)`: returns the pruned extents and
  the remaining object overlap. -/
  prune_parent_extents : Extents → Nat → Extents × Nat
  /-- `Striper::extent_to_file(cct, &layout, object_no, off, len, extents)`. -/
  extent_to_file : Nat → Nat → Nat → Extents
  /-- `get_read_flags(snap_id)`. -/
  get_read_flags : Nat → Int
  /-- `layout.object_size` / `get_object_size()`. -/
  object_size : Nat
  enable_alloc_hint : Bool
  /-- `!ictx->snaps.empty()`. -/
  snaps_nonempty : Bool

/-- `is_copy_on_read(ictx, snap_id)` (lines 130-136). -/
def is_copy_on_read (ictx : ImageCtxView) (snap_id : Nat) : Bool :=
  ictx.clone_copy_on_read && !ictx.read_only && (snap_id == CEPH_NOSNAP) &&
    (!ictx.exclusive_lock_present || ictx.is_lock_owner)

/-- `AioObjectRequest<I>::compute_parent_extents` (lines 102-128): on overlap
retrieval failure the extent list is cleared and `false` is returned; otherwise
the list is pruned and `true` is returned iff some object overlap remains. -/
def AioObjectRequest.compute_parent_extents (ictx : ImageCtxView) (snap_id : Nat)
    (parent_extents : Extents) : Extents × Bool :=
  let (r, parent_overlap) := ictx.get_parent_overlap snap_id
  if r < 0 then
    ([], false)
  else
    let (pruned, object_overlap) := ictx.prune_parent_extents parent_extents parent_overlap
    (pruned, decide (0 < object_overlap))

/-! ### Read request automaton -/

inductive ReadState where
  | FLAT | GUARD | COPYUP
deriving DecidableEq

/-- `AioObjectRead<I>` (reads are constructed with `hide_enoent = false`). -/
structure ReadReq where
  oid : String
  object_no : Nat
  object_off : Nat
  object_len : Nat
  snap_id : Nat
  tried_parent : Bool
  sparse : Bool
  op_flags : Int
  state : ReadState
  parent_extents : Extents
deriving DecidableEq

/-- `this->has_parent()`: `!m_parent_extents.empty()`. -/
def ReadReq.has_parent (req : ReadReq) : Bool :=
  !req.parent_extents.isEmpty

/-- `AioObjectRead<I>::guard_read` (lines 154-165). -/
def AioObjectRead.guard_read (req : ReadReq) : ReadReq :=
  if req.has_parent then { req with state := .GUARD } else req

/-- `AioObjectRead<I>::send` (lines 249-285): if the object map is present and
reports the object may not exist, queue a deferred `-ENOENT` callback and
return; otherwise submit one sparse or dense read. -/
def AioObjectRead.send (ictx : ImageCtxView) (req : ReadReq) : List Effect :=
  if ictx.object_map_present && !ictx.object_may_exist req.object_no then
    [.QueueCallback (-ENOENT)]
  else
    [.SubmitRead req.object_off req.object_len req.sparse req.op_flags
      (ictx.get_read_flags req.snap_id)]

/-- `AioObjectRead<I>::send_copyup` (lines 287-314): bail out unless parent
extents remain and the exclusive lock (when present) is owned; then, under
`copyup_list_lock`, create-and-send a new `CopyupRequest` only when none is
registered for this object_no (the read path appends no waiter). -/
def AioObjectRead.send_copyup (ictx : ImageCtxView) (req : ReadReq)
    (reg : Registry) : ReadReq × Registry × List Effect :=
  let (pe, hasp) :=
    AioObjectRequest.compute_parent_extents ictx req.snap_id req.parent_extents
  let req := { req with parent_extents := pe }
  if !hasp || (ictx.exclusive_lock_present && !ictx.is_lock_owner) then
    (req, reg, [])
  else
    match reg.lookup req.object_no with
    | none =>
      let new_req : CopyupRequest :=
        ⟨req.oid, req.object_no, req.parent_extents, 0⟩
      let req := { req with parent_extents := [] }
      (req, (req.object_no, new_req) :: reg, [.CopyupSend req.object_no])
    | some _ => (req, reg, [])

/-- `AioObjectRead<I>::should_complete` (lines 167-247).  The local `r` is
overwritten by the `get_parent_overlap` status inside the GUARD branch; the
caller's copy (used for the delivery) is unaffected. -/
def AioObjectRead.should_complete (ictx : ImageCtxView) (req : ReadReq)
    (reg : Registry) (r : Int) : Bool × ReadReq × Registry × List Effect :=
  match req.state with
  | .GUARD =>
    if !req.tried_parent && r == -ENOENT then
      if !ictx.parent_present then
        (false, { req with state := .FLAT }, reg, [])
      else
        let parent_extents :=
          ictx.extent_to_file req.object_no req.object_off req.object_len
        let (r2, parent_overlap) := ictx.get_parent_overlap req.snap_id
        let (parent_extents, object_overlap) :=
          if r2 == 0 then ictx.prune_parent_extents parent_extents parent_overlap
          else (parent_extents, 0)
        if 0 < object_overlap then
          let req := { req with tried_parent := true }
          let req :=
            if is_copy_on_read ictx req.snap_id then { req with state := .COPYUP }
            else req
          (false, req, reg, [.ReadFromParent parent_extents])
        else
          (true, req, reg, [])
    else
      (true, req, reg, [])
  | .COPYUP =>
    if 0 < r then
      let (req, reg, effs) := AioObjectRead.send_copyup ictx req reg
      (true, req, reg, effs)
    else
      (true, req, reg, [])
  | .FLAT => (true, req, reg, [])

/-- `AioObjectRequest<I>::complete` (lines 89-100), instantiated for reads:
reads are constructed with `hide_enoent = false`, so the delivered status is
`r` unchanged. -/
def AioObjectRead.complete (ictx : ImageCtxView) (req : ReadReq)
    (reg : Registry) (r : Int) : ReadReq × Registry × List Effect :=
  let (finished, req, reg, effs) := AioObjectRead.should_complete ictx req reg r
  if finished then (req, reg, effs ++ [.Deliver r, .Destroy])
  else (req, reg, effs)

/-! ### Write-family automaton (`AbstractAioObjectWrite` and its variants) -/

inductive WriteState where
  | FLAT | GUARD | COPYUP | PRE | POST | ERROR
deriving DecidableEq

inductive WriteVariant where
  | Write | Zero | Truncate | Remove
deriving DecidableEq

/-- A write-family request.  The constructor passes `snap_id = CEPH_NOSNAP` to
the base class.  `pre_update_state` and `post_update` model the per-variant
virtual hooks `pre_object_map_update(&new_state)` / `post_object_map_update()`
declared in `AioObjectRequest.h` (not part of this source file), so theorems
quantify over them.  `m_write` is the accumulated
`librados::ObjectWriteOperation` member. -/
structure WriteReq where
  oid : String
  object_no : Nat
  object_off : Nat
  object_len : Nat
  snap_id : Nat
  snap_seq : Nat
  snaps : List Nat
  parent_extents : Extents
  state : WriteState
  object_exist : Bool
  hide_enoent : Bool
  variant : WriteVariant
  op_flags : Int
  m_write : List WriteOp
  pre_update_state : Nat
  post_update : Bool
deriving DecidableEq

/-- `this->has_parent()`: `!m_parent_extents.empty()`. -/
def WriteReq.has_parent (req : WriteReq) : Bool :=
  !req.parent_extents.isEmpty

/-- `AbstractAioObjectWrite::guard_write` (lines 349-356): when the request has
a parent, set state GUARD and append `assert_exists` to the batch. -/
def AbstractAioObjectWrite.guard_write (req : WriteReq) : WriteReq :=
  if req.has_parent then
    { req with state := .GUARD, m_write := req.m_write ++ [.assert_exists] }
  else req

/-- `AioObjectRemove::guard_write` (lines 602-608): guard only when snapshots
exist (deep-copyup preservation). -/
def AioObjectRemove.guard_write (ictx : ImageCtxView) (req : WriteReq) : WriteReq :=
  if ictx.snaps_nonempty then AbstractAioObjectWrite.guard_write req else req

/-- Virtual dispatch of `guard_write()`: only `AioObjectRemove` overrides it. -/
def guard_write_dispatch (ictx : ImageCtxView) (req : WriteReq) : WriteReq :=
  match req.variant with
  | .Remove => AioObjectRemove.guard_write ictx req
  | _ => AbstractAioObjectWrite.guard_write req

/-- `AioObjectWrite::add_write_ops` (lines 574-587). -/
def AioObjectWrite.add_write_ops (ictx : ImageCtxView) (req : WriteReq) : List WriteOp :=
  (if ictx.enable_alloc_hint && (!ictx.object_map_present || !req.object_exist) then
    [.set_alloc_hint ictx.object_size ictx.object_size]
  else []) ++
  (if req.object_off == 0 && req.object_len == ictx.object_size then
    [.write_full]
  else
    [.write req.object_off]) ++
  [.set_op_flags2 req.op_flags]

/-- Modelled from the spec: the `add_write_ops` hooks of `AioObjectZero`,
`AioObjectTruncate` and `AioObjectRemove` are declared in
`librbd/AioObjectRequest.h`, which is not part of this source file.  Per spec
§4.E: Zero appends a zero-range op; Truncate truncates to `object_off`; Remove
removes, or removes with snapshot preservation when `m_snaps` is nonempty.
`AioObjectWrite`'s hook is in this source file and embedded above. -/
def add_write_ops_dispatch (ictx : ImageCtxView) (req : WriteReq) : List WriteOp :=
  match req.variant with
  | .Write => AioObjectWrite.add_write_ops ictx req
  | .Zero => [.zero req.object_off req.object_len]
  | .Truncate => [.truncate req.object_off]
  | .Remove => if req.snaps.isEmpty then [.remove] else [.remove_with_snaps]

/-- `AbstractAioObjectWrite::send_write_op` (lines 540-554): state FLAT, apply
the guard when requested, append the variant's mutations to the batch, submit
it with the request's snap context. -/
def AbstractAioObjectWrite.send_write_op (ictx : ImageCtxView) (req : WriteReq)
    (write_guard : Bool) : WriteReq × List Effect :=
  let req := { req with state := .FLAT }
  let req := if write_guard then guard_write_dispatch ictx req else req
  let req := { req with m_write := req.m_write ++ add_write_ops_dispatch ictx req }
  (req, [.SubmitWriteOp req.m_write req.snap_seq req.snaps])

/-- `AbstractAioObjectWrite::send_copyup` (lines 514-539): state COPYUP; under
`copyup_list_lock`, either create a job with the moved parent extents, append
this request as its first waiter, insert it and (after unlocking) `send()` it,
or append this request to the existing job without issuing work. -/
def AbstractAioObjectWrite.send_copyup (req : WriteReq) (reg : Registry) :
    WriteReq × Registry × List Effect :=
  let req := { req with state := .COPYUP }
  match reg.lookup req.object_no with
  | none =>
    let new_req : CopyupRequest :=
      ⟨req.oid, req.object_no, req.parent_extents, 1⟩
    let req := { req with parent_extents := [] }
    (req, (req.object_no, new_req) :: reg, [.CopyupSend req.object_no])
  | some it =>
    let reg := reg.map fun e =>
      if e.1 == req.object_no then (e.1, { it with pending := it.pending + 1 })
      else e
    (req, reg, [])

/-- `AbstractAioObjectWrite::send_post` (lines 475-499): finish unless the map
is present, the variant requests a post update and the map requires one; in
that case submit `aio_update(object_no, OBJECT_NONEXISTENT, OBJECT_PENDING)`
and await it in state POST. -/
def AbstractAioObjectWrite.send_post (ictx : ImageCtxView) (req : WriteReq) :
    Bool × WriteReq × List Effect :=
  if !ictx.object_map_present || !req.post_update then
    (true, req, [])
  else if !ictx.update_required req.object_no OBJECT_NONEXISTENT then
    (true, req, [])
  else
    (false, { req with state := .POST },
      [.MapUpdate req.object_no OBJECT_NONEXISTENT (some OBJECT_PENDING)])

mutual

/-- `AbstractAioObjectWrite::send_write` (lines 501-512), the base behaviour:
if the object may not exist and a parent remains, enter GUARD and run
`handle_write_guard()`; otherwise submit the guarded batch. -/
def AbstractAioObjectWrite.send_write : Nat → ImageCtxView → WriteReq → Registry →
    Option (WriteReq × Registry × List Effect)
  | 0, _, _, _ => none
  | fuel + 1, ictx, req, reg =>
    if !req.object_exist && req.has_parent then
      AbstractAioObjectWrite.handle_write_guard fuel ictx
        { req with state := .GUARD } reg
    else
      let (req, effs) := AbstractAioObjectWrite.send_write_op ictx req true
      some (req, reg, effs)

/-- Virtual dispatch of `send_write()`: `AioObjectWrite` (lines 589-600) skips
the guard for a full-object write without parent; `AioObjectRemove`
(lines 609-613) always submits directly; `AioObjectTruncate` (lines 614-624)
short-circuits a nonexistent object with no parent to a queued success;
`AioObjectZero` uses the base behaviour. -/
def send_write_dispatch : Nat → ImageCtxView → WriteReq → Registry →
    Option (WriteReq × Registry × List Effect)
  | 0, _, _, _ => none
  | fuel + 1, ictx, req, reg =>
    match req.variant with
    | .Write =>
      let write_full := req.object_off == 0 && req.object_len == ictx.object_size
      if write_full && !req.has_parent then
        let (req, effs) := AbstractAioObjectWrite.send_write_op ictx req false
        some (req, reg, effs)
      else
        AbstractAioObjectWrite.send_write fuel ictx req reg
    | .Remove =>
      let (req, effs) := AbstractAioObjectWrite.send_write_op ictx req true
      some (req, reg, effs)
    | .Truncate =>
      if !req.object_exist && !req.has_parent then
        some ({ req with state := .FLAT }, reg, [.QueueCallback 0])
      else
        AbstractAioObjectWrite.send_write fuel ictx req reg
    | .Zero =>
      AbstractAioObjectWrite.send_write fuel ictx req reg

/-- `AbstractAioObjectWrite::handle_write_guard` (lines 555-572): under
snap+parent locks recompute parent extents; if any remain, `send_copyup()`,
else send the original write again. -/
def AbstractAioObjectWrite.handle_write_guard : Nat → ImageCtxView → WriteReq →
    Registry → Option (WriteReq × Registry × List Effect)
  | 0, _, _, _ => none
  | fuel + 1, ictx, req, reg =>
    let (pe, has_parent) :=
      AioObjectRequest.compute_parent_extents ictx req.snap_id req.parent_extents
    let req := { req with parent_extents := pe }
    if has_parent then
      some (AbstractAioObjectWrite.send_copyup req reg)
    else
      send_write_dispatch fuel ictx req reg

/-- `AbstractAioObjectWrite::should_complete` (lines 358-427). -/
def AbstractAioObjectWrite.should_complete : Nat → ImageCtxView → WriteReq →
    Registry → Int → Option (Bool × WriteReq × Registry × List Effect)
  | 0, _, _, _, _ => none
  | fuel + 1, ictx, req, reg, r =>
    match req.state with
    | .PRE =>
      if r < 0 then
        some (true, req, reg, [])
      else do
        let (req, reg, effs) ← send_write_dispatch fuel ictx req reg
        some (false, req, reg, effs)
    | .POST => some (true, req, reg, [])
    | .GUARD =>
      if r == -ENOENT then do
        let (req, reg, effs) ←
          AbstractAioObjectWrite.handle_write_guard fuel ictx req reg
        some (false, req, reg, effs)
      else if r < 0 then do
        let (req, reg, effs) ←
          AbstractAioObjectWrite.complete fuel ictx { req with state := .ERROR } reg r
        some (false, req, reg, effs)
      else
        let (finished, req, effs) := AbstractAioObjectWrite.send_post ictx req
        some (finished, req, reg, effs)
    | .COPYUP =>
      if r < 0 then do
        let (req, reg, effs) ←
          AbstractAioObjectWrite.complete fuel ictx { req with state := .ERROR } reg r
        some (false, req, reg, effs)
      else
        let (finished, req, effs) := AbstractAioObjectWrite.send_post ictx req
        some (finished, req, reg, effs)
    | .FLAT =>
      let (finished, req, effs) := AbstractAioObjectWrite.send_post ictx req
      some (finished, req, reg, effs)
    | .ERROR => some (true, req, reg, [])

/-- `AioObjectRequest<I>::complete` (lines 89-100), instantiated for the write
family: when `should_complete(r)` finishes, deliver the (hide_enoent
transformed) status and destroy the request. -/
def AbstractAioObjectWrite.complete : Nat → ImageCtxView → WriteReq → Registry →
    Int → Option (WriteReq × Registry × List Effect)
  | 0, _, _, _, _ => none
  | fuel + 1, ictx, req, reg, r => do
    let (finished, req, reg, effs) ←
      AbstractAioObjectWrite.should_complete fuel ictx req reg r
    if finished then
      some (req, reg,
        effs ++ [.Deliver (if req.hide_enoent && r == -ENOENT then 0 else r), .Destroy])
    else
      some (req, reg, effs)

end

/-- `AbstractAioObjectWrite::send_pre` (lines 436-473): with no object map the
object is assumed to exist and the write proceeds; otherwise record
`object_may_exist`, ask the variant for the intended new map state, and either
submit the pre map update (state PRE) or proceed to `send_write`. -/
def AbstractAioObjectWrite.send_pre (fuel : Nat) (ictx : ImageCtxView)
    (req : WriteReq) (reg : Registry) : Option (WriteReq × Registry × List Effect) :=
  if !ictx.object_map_present then
    let req := { req with object_exist := true }
    send_write_dispatch fuel ictx req reg
  else
    let req := { req with object_exist := ictx.object_may_exist req.object_no }
    let new_state := req.pre_update_state
    if ictx.update_required req.object_no new_state then
      some ({ req with state := .PRE }, reg,
        [.MapUpdate req.object_no new_state none])
    else
      send_write_dispatch fuel ictx req reg

/-- `AbstractAioObjectWrite::send` (lines 429-434). -/
def AbstractAioObjectWrite.send (fuel : Nat) (ictx : ImageCtxView)
    (req : WriteReq) (reg : Registry) : Option (WriteReq × Registry × List Effect) :=
  AbstractAioObjectWrite.send_pre fuel ictx req reg

/-! ### Effect counting and request lifetimes -/

def isDeliver : Effect → Bool
  | .Deliver _ => true
  | _ => false

def isDestroy : Effect → Bool
  | .Destroy => true
  | _ => false

/-- Number of `Deliver` effects (deliveries to the completion sink). -/
def deliverCount : List Effect → Nat
  | [] => 0
  | e :: es => (if isDeliver e then 1 else 0) + deliverCount es

/-- Number of `Destroy` effects (`delete this`). -/
def destroyCount : List Effect → Nat
  | [] => 0
  | e :: es => (if isDestroy e then 1 else 0) + destroyCount es

/-- A lifetime of a write-family request: the object-store / work-queue / map
callbacks re-enter `complete` with successive statuses until a call destroys
the request; the trace is the concatenation of all emitted effects. -/
def writeRun (fuel : Nat) (ictx : ImageCtxView) :
    WriteReq → Registry → List Int → Option (List Effect)
  | _, _, [] => some []
  | req, reg, r :: rs => do
    let (req, reg, effs) ← AbstractAioObjectWrite.complete fuel ictx req reg r
    if Effect.Destroy ∈ effs then
      some effs
    else do
      let rest ← writeRun fuel ictx req reg rs
      some (effs ++ rest)

/-- A lifetime of a read request, analogous to `writeRun`. -/
def readRun (ictx : ImageCtxView) : ReadReq → Registry → List Int → List Effect
  | _, _, [] => []
  | req, reg, r :: rs =>
    let (req, reg, effs) := AioObjectRead.complete ictx req reg r
    if Effect.Destroy ∈ effs then effs
    else effs ++ readRun ictx req reg rs

/-! ### Concrete fixtures used to evaluate the model on closed inputs -/

/-- A concrete image-context view: a clone with a parent of overlap 4 MiB, no
object map, no exclusive lock, copy-on-read enabled. -/
def testCtx : ImageCtxView where
  clone_copy_on_read := true
  read_only := false
  exclusive_lock_present := false
  is_lock_owner := false
  object_map_present := false
  object_may_exist := fun _ => true
  update_required := fun _ _ => false
  parent_present := true
  get_parent_overlap := fun _ => (0, 4194304)
  prune_parent_extents := fun pe overlap =>
    let pruned := pe.filterMap fun e =>
      if e.1 < overlap && 0 < e.2 then some (e.1, min e.2 (overlap - e.1)) else none
    (pruned, pruned.foldl (fun a e => a + e.2) 0)
  extent_to_file := fun object_no off len => [(object_no * 4194304 + off, len)]
  get_read_flags := fun _ => 0
  object_size := 4194304
  enable_alloc_hint := false
  snaps_nonempty := false

/-- `testCtx` with an object map present and an owned exclusive lock. -/
def testCtxMap : ImageCtxView :=
  { testCtx with
      object_map_present := true
      exclusive_lock_present := true
      is_lock_owner := true
      object_may_exist := fun _ => false }

/-- `testCtx` with no parent and a failing `get_parent_overlap`. -/
def testCtxNoParent : ImageCtxView :=
  { testCtx with
      parent_present := false
      get_parent_overlap := fun _ => (-ENOENT, 0) }

/-- A concrete read request in state GUARD (fresh, parent not yet tried). -/
def testReadReq : ReadReq where
  oid := "rbd_data.1.0"
  object_no := 0
  object_off := 0
  object_len := 4096
  snap_id := CEPH_NOSNAP
  tried_parent := false
  sparse := false
  op_flags := 0
  state := .GUARD
  parent_extents := [(0, 4096)]

/-- A concrete full-object Write request with no parent, as submitted. -/
def testWriteReq : WriteReq where
  oid := "rbd_data.1.0"
  object_no := 0
  object_off := 0
  object_len := 4194304
  snap_id := CEPH_NOSNAP
  snap_seq := 0
  snaps := []
  parent_extents := []
  state := .FLAT
  object_exist := true
  hide_enoent := false
  variant := .Write
  op_flags := 0
  m_write := []
  pre_update_state := OBJECT_EXISTS
  post_update := false

/-- `testWriteReq` after its unguarded full-object submission. -/
def testWriteDone : WriteReq :=
  { testWriteReq with
      state := .FLAT
      m_write := [.write_full, .set_op_flags2 0] }

/-- A concrete guarded Write request with a parent, awaiting its guarded
submission's status. -/
def testGuardReq : WriteReq :=
  { testWriteReq with
      object_off := 1024
      object_len := 1024
      parent_extents := [(1024, 1024)]
      state := .GUARD
      object_exist := false
      m_write := [.assert_exists, .write 1024, .set_op_flags2 0] }

/-- A concrete Truncate request on a nonexistent object with no parent. -/
def testTruncReq : WriteReq :=
  { testWriteReq with
      object_no := 9
      object_off := 0
      object_len := 0
      variant := .Truncate
      object_exist := false
      hide_enoent := true
      post_update := false
      m_write := [] }

/-! ### Helper lemmas: effect counting -/

theorem deliverCount_append (a b : List Effect) :
    deliverCount (a ++ b) = deliverCount a + deliverCount b := by
  induction a with
  | nil => simp [deliverCount]
  | cons e es ih => simp [deliverCount, ih]; omega

theorem destroyCount_append (a b : List Effect) :
    destroyCount (a ++ b) = destroyCount a + destroyCount b := by
  induction a with
  | nil => simp [destroyCount]
  | cons e es ih => simp [destroyCount, ih]; omega

theorem isDestroy_iff (e : Effect) : isDestroy e = true ↔ e = .Destroy := by
  cases e <;> simp [isDestroy]

theorem destroy_mem_iff (effs : List Effect) :
    Effect.Destroy ∈ effs ↔ 0 < destroyCount effs := by
  induction effs with
  | nil => simp [destroyCount]
  | cons e es ih =>
    rcases he : isDestroy e with _ | _
    · have : ¬(Effect.Destroy = e) := by
        intro h; rw [← h] at he; simp [isDestroy] at he
      simp [destroyCount, he, List.mem_cons, ih, this]
    · have he' : e = .Destroy := (isDestroy_iff e).mp he
      simp [destroyCount, he', isDestroy]

/-! ### Helper lemmas: the send-side functions deliver nothing and destroy
nothing (deliveries happen only inside `complete`) -/

theorem send_write_op_clean (ictx : ImageCtxView) (req : WriteReq) (g : Bool) :
    deliverCount (AbstractAioObjectWrite.send_write_op ictx req g).2 = 0 ∧
    destroyCount (AbstractAioObjectWrite.send_write_op ictx req g).2 = 0 := by
  simp [AbstractAioObjectWrite.send_write_op, deliverCount, destroyCount,
    isDeliver, isDestroy]

theorem send_copyup_clean (req : WriteReq) (reg : Registry) :
    deliverCount (AbstractAioObjectWrite.send_copyup req reg).2.2 = 0 ∧
    destroyCount (AbstractAioObjectWrite.send_copyup req reg).2.2 = 0 := by
  unfold AbstractAioObjectWrite.send_copyup
  dsimp only
  rcases hl : List.lookup req.object_no reg with _ | it <;>
    simp [deliverCount, destroyCount, isDeliver, isDestroy]

theorem send_post_clean (ictx : ImageCtxView) (req : WriteReq) :
    deliverCount (AbstractAioObjectWrite.send_post ictx req).2.2 = 0 ∧
    destroyCount (AbstractAioObjectWrite.send_post ictx req).2.2 = 0 := by
  unfold AbstractAioObjectWrite.send_post
  split
  · simp [deliverCount, destroyCount]
  · split <;> simp [deliverCount, destroyCount, isDeliver, isDestroy]

theorem sends_clean (fuel : Nat) :
    ∀ ictx req reg out,
      (AbstractAioObjectWrite.send_write fuel ictx req reg = some out →
        deliverCount out.2.2 = 0 ∧ destroyCount out.2.2 = 0) ∧
      (send_write_dispatch fuel ictx req reg = some out →
        deliverCount out.2.2 = 0 ∧ destroyCount out.2.2 = 0) ∧
      (AbstractAioObjectWrite.handle_write_guard fuel ictx req reg = some out →
        deliverCount out.2.2 = 0 ∧ destroyCount out.2.2 = 0) := by
  induction fuel with
  | zero =>
    intro ictx req reg out
    refine ⟨?_, ?_, ?_⟩ <;>
      · intro h
        simp [AbstractAioObjectWrite.send_write, send_write_dispatch,
          AbstractAioObjectWrite.handle_write_guard] at h
  | succ fuel ih =>
    intro ictx req reg out
    refine ⟨?_, ?_, ?_⟩
    · intro h
      rw [AbstractAioObjectWrite.send_write] at h
      split at h
      · exact (ih ictx _ reg out).2.2 h
      · rcases hw : AbstractAioObjectWrite.send_write_op ictx req true with ⟨ra, ea⟩
        rw [hw] at h
        injection h with h
        subst h
        have := send_write_op_clean ictx req true
        rw [hw] at this
        exact this
    · intro h
      rw [send_write_dispatch] at h
      rcases hv : req.variant with _ | _ | _ | _ <;> rw [hv] at h <;> dsimp only at h
      · split at h
        · rcases hw : AbstractAioObjectWrite.send_write_op ictx req false with ⟨ra, ea⟩
          rw [hw] at h
          injection h with h
          subst h
          have := send_write_op_clean ictx req false
          rw [hw] at this
          exact this
        · exact (ih ictx req reg out).1 h
      · exact (ih ictx req reg out).1 h
      · split at h
        · injection h with h
          subst h
          simp [deliverCount, destroyCount, isDeliver, isDestroy]
        · exact (ih ictx req reg out).1 h
      · rcases hw : AbstractAioObjectWrite.send_write_op ictx req true with ⟨ra, ea⟩
        rw [hw] at h
        injection h with h
        subst h
        have := send_write_op_clean ictx req true
        rw [hw] at this
        exact this
    · intro h
      rw [AbstractAioObjectWrite.handle_write_guard] at h
      split at h
      split at h
      · injection h with h
        subst h
        exact send_copyup_clean _ reg
      · exact (ih ictx _ reg out).2.1 h

/-- Per-call delivery discipline of the write automaton: a single entry of
`complete(r)` delivers exactly as many times as it destroys, and at most once;
a `should_complete(r)` that reports finished has itself neither delivered nor
destroyed (the pending delivery is then performed by its caller `complete`). -/
theorem complete_counts (fuel : Nat) :
    ∀ ictx req reg r,
      (∀ out, AbstractAioObjectWrite.complete fuel ictx req reg r = some out →
        deliverCount out.2.2 = destroyCount out.2.2 ∧ deliverCount out.2.2 ≤ 1) ∧
      (∀ out, AbstractAioObjectWrite.should_complete fuel ictx req reg r = some out →
        deliverCount out.2.2.2 = destroyCount out.2.2.2 ∧ deliverCount out.2.2.2 ≤ 1 ∧
        (out.1 = true → deliverCount out.2.2.2 = 0 ∧ destroyCount out.2.2.2 = 0)) := by
  induction fuel with
  | zero =>
    intro ictx req reg r
    constructor <;> intro out h <;>
      simp [AbstractAioObjectWrite.complete, AbstractAioObjectWrite.should_complete] at h
  | succ fuel ih =>
    intro ictx req reg r
    constructor
    · intro out h
      rw [AbstractAioObjectWrite.complete] at h
      rcases hsc : AbstractAioObjectWrite.should_complete fuel ictx req reg r with
        _ | ⟨fin, req', reg', effs⟩ <;> rw [hsc] at h <;>
        simp only [Bind.bind, Option.bind] at h
      · exact Option.noConfusion h
      · obtain ⟨hA, hB, hC⟩ := (ih ictx req reg r).2 (fin, req', reg', effs) hsc
        split at h <;> injection h with h <;> subst h
        · rename_i hfin
          obtain ⟨h0, h0'⟩ := hC hfin
          dsimp only
          rw [deliverCount_append, destroyCount_append, h0, h0']
          simp [deliverCount, destroyCount, isDeliver, isDestroy]
        · exact ⟨hA, hB⟩
    · intro out h
      rw [AbstractAioObjectWrite.should_complete] at h
      rcases hst : req.state with _ | _ | _ | _ | _ | _ <;> rw [hst] at h <;> dsimp only at h
      · -- FLAT
        rcases hp : AbstractAioObjectWrite.send_post ictx req with ⟨fin0, req0, effs0⟩
        rw [hp] at h
        injection h with h
        subst h
        have h0 := send_post_clean ictx req
        rw [hp] at h0
        dsimp only at h0 ⊢
        exact ⟨by omega, by omega, fun _ => h0⟩
      · -- GUARD
        split at h
        · rcases hw : AbstractAioObjectWrite.handle_write_guard fuel ictx req reg with
            _ | ⟨ra, ga, ea⟩ <;> rw [hw] at h <;> simp only [Bind.bind, Option.bind] at h
          · exact Option.noConfusion h
          · injection h with h
            subst h
            have h0 := ((sends_clean fuel) ictx req reg (ra, ga, ea)).2.2 hw
            dsimp only at h0 ⊢
            exact ⟨by omega, by omega, by simp⟩
        · split at h
          · rcases hc : AbstractAioObjectWrite.complete fuel ictx
                { req with state := .ERROR } reg r with _ | ⟨ra, ga, ea⟩ <;>
              rw [hc] at h <;> simp only [Bind.bind, Option.bind] at h
            · exact Option.noConfusion h
            · injection h with h
              subst h
              obtain ⟨hA, hB⟩ := (ih ictx { req with state := .ERROR } reg r).1 (ra, ga, ea) hc
              exact ⟨hA, hB, by simp⟩
          · rcases hp : AbstractAioObjectWrite.send_post ictx req with ⟨fin0, req0, effs0⟩
            rw [hp] at h
            injection h with h
            subst h
            have h0 := send_post_clean ictx req
            rw [hp] at h0
            dsimp only at h0 ⊢
            exact ⟨by omega, by omega, fun _ => h0⟩
      · -- COPYUP
        split at h
        · rcases hc : AbstractAioObjectWrite.complete fuel ictx
              { req with state := .ERROR } reg r with _ | ⟨ra, ga, ea⟩ <;>
            rw [hc] at h <;> simp only [Bind.bind, Option.bind] at h
          · exact Option.noConfusion h
          · injection h with h
            subst h
            obtain ⟨hA, hB⟩ := (ih ictx { req with state := .ERROR } reg r).1 (ra, ga, ea) hc
            exact ⟨hA, hB, by simp⟩
        · rcases hp : AbstractAioObjectWrite.send_post ictx req with ⟨fin0, req0, effs0⟩
          rw [hp] at h
          injection h with h
          subst h
          have h0 := send_post_clean ictx req
          rw [hp] at h0
          dsimp only at h0 ⊢
          exact ⟨by omega, by omega, fun _ => h0⟩
      · -- PRE
        split at h
        · injection h with h
          subst h
          simp [deliverCount, destroyCount]
        · rcases hd : send_write_dispatch fuel ictx req reg with _ | ⟨ra, ga, ea⟩ <;>
            rw [hd] at h <;> simp only [Bind.bind, Option.bind] at h
          · exact Option.noConfusion h
          · injection h with h
            subst h
            have h0 := ((sends_clean fuel) ictx req reg (ra, ga, ea)).2.1 hd
            dsimp only at h0 ⊢
            exact ⟨by omega, by omega, by simp⟩
      · -- POST
        injection h with h
        subst h
        simp [deliverCount, destroyCount]
      · -- ERROR
        injection h with h
        subst h
        simp [deliverCount, destroyCount]

/-- Delivery discipline over a whole write-request lifetime. -/
theorem writeRun_counts (fuel : Nat) (ictx : ImageCtxView) :
    ∀ rs req reg trace, writeRun fuel ictx req reg rs = some trace →
      deliverCount trace = destroyCount trace ∧ deliverCount trace ≤ 1 ∧
      (Effect.Destroy ∈ trace → deliverCount trace = 1) := by
  intro rs
  induction rs with
  | nil =>
    intro req reg trace h
    rw [writeRun] at h
    injection h with h
    subst h
    simp [deliverCount, destroyCount]
  | cons r rs ih =>
    intro req reg trace h
    rw [writeRun] at h
    rcases hc : AbstractAioObjectWrite.complete fuel ictx req reg r with
      _ | ⟨ra, ga, ea⟩ <;> rw [hc] at h <;> simp only [Bind.bind, Option.bind] at h
    · exact Option.noConfusion h
    · obtain ⟨hEq, hLe⟩ := (complete_counts fuel ictx req reg r).1 (ra, ga, ea) hc
      dsimp only at hEq hLe
      by_cases hd : Effect.Destroy ∈ ea
      · rw [if_pos hd] at h
        injection h with h
        subst h
        have hpos : 0 < destroyCount ea := (destroy_mem_iff ea).mp hd
        exact ⟨hEq, hLe, fun _ => by omega⟩
      · rw [if_neg hd] at h
        rcases hr : writeRun fuel ictx ra ga rs with _ | tr <;> rw [hr] at h <;>
          simp only [Bind.bind, Option.bind] at h
        · exact Option.noConfusion h
        · injection h with h
          subst h
          obtain ⟨hE2, hL2, hD2⟩ := ih ra ga tr hr
          have hz : destroyCount ea = 0 := by
            by_contra hnz
            exact hd ((destroy_mem_iff ea).mpr (Nat.pos_of_ne_zero hnz))
          have hz' : deliverCount ea = 0 := by omega
          rw [deliverCount_append, destroyCount_append, hz, hz']
          refine ⟨by omega, by omega, fun hmem => ?_⟩
          rcases List.mem_append.mp hmem with hmem | hmem
          · exact absurd hmem hd
          · have := hD2 hmem
            omega

theorem read_send_copyup_clean (ictx : ImageCtxView) (req : ReadReq) (reg : Registry) :
    deliverCount (AioObjectRead.send_copyup ictx req reg).2.2 = 0 ∧
    destroyCount (AioObjectRead.send_copyup ictx req reg).2.2 = 0 := by
  unfold AioObjectRead.send_copyup
  rcases hc : AioObjectRequest.compute_parent_extents ictx req.snap_id req.parent_extents with
    ⟨pe, hasp⟩
  dsimp only
  split
  · simp [deliverCount, destroyCount]
  · split <;> simp [deliverCount, destroyCount, isDeliver, isDestroy]

theorem read_should_complete_clean (ictx : ImageCtxView) (req : ReadReq)
    (reg : Registry) (r : Int) :
    deliverCount (AioObjectRead.should_complete ictx req reg r).2.2.2 = 0 ∧
    destroyCount (AioObjectRead.should_complete ictx req reg r).2.2.2 = 0 := by
  unfold AioObjectRead.should_complete
  split
  · split
    · split
      · simp [deliverCount, destroyCount]
      · split
        rename_i x r2 pov heq
        split
        · dsimp only
          split <;> simp [deliverCount, destroyCount, isDeliver, isDestroy]
        · dsimp only
          simp [deliverCount, destroyCount]
    · simp [deliverCount, destroyCount]
  · split
    · rcases hs : AioObjectRead.send_copyup ictx req reg with ⟨ra, ga, ea⟩
      have h0 := read_send_copyup_clean ictx req reg
      rw [hs] at h0
      dsimp only at h0 ⊢
      exact h0
    · simp [deliverCount, destroyCount]
  · simp [deliverCount, destroyCount]

theorem read_complete_counts (ictx : ImageCtxView) (req : ReadReq)
    (reg : Registry) (r : Int) :
    deliverCount (AioObjectRead.complete ictx req reg r).2.2 =
      destroyCount (AioObjectRead.complete ictx req reg r).2.2 ∧
    deliverCount (AioObjectRead.complete ictx req reg r).2.2 ≤ 1 := by
  unfold AioObjectRead.complete
  rcases hsc : AioObjectRead.should_complete ictx req reg r with ⟨fin, req', reg', effs⟩
  have h0 := read_should_complete_clean ictx req reg r
  rw [hsc] at h0
  dsimp only at h0 ⊢
  split
  · rw [deliverCount_append, destroyCount_append, h0.1, h0.2]
    simp [deliverCount, destroyCount, isDeliver, isDestroy]
  · dsimp only
    omega

/-- Delivery discipline over a whole read-request lifetime. -/
theorem readRun_counts (ictx : ImageCtxView) :
    ∀ rs req reg,
      deliverCount (readRun ictx req reg rs) = destroyCount (readRun ictx req reg rs) ∧
      deliverCount (readRun ictx req reg rs) ≤ 1 ∧
      (Effect.Destroy ∈ readRun ictx req reg rs →
        deliverCount (readRun ictx req reg rs) = 1) := by
  intro rs
  induction rs with
  | nil =>
    intro req reg
    simp [readRun, deliverCount, destroyCount]
  | cons r rs ih =>
    intro req reg
    rw [readRun]
    rcases hc : AioObjectRead.complete ictx req reg r with ⟨ra, ga, ea⟩
    have h0 := read_complete_counts ictx req reg r
    rw [hc] at h0
    dsimp only at h0 ⊢
    obtain ⟨hEq, hLe⟩ := h0
    by_cases hd : Effect.Destroy ∈ ea
    · rw [if_pos hd]
      have hpos : 0 < destroyCount ea := (destroy_mem_iff ea).mp hd
      exact ⟨hEq, hLe, fun _ => by omega⟩
    · rw [if_neg hd]
      obtain ⟨hE2, hL2, hD2⟩ := ih ra ga
      have hz : destroyCount ea = 0 := by
        by_contra hnz
        exact hd ((destroy_mem_iff ea).mpr (Nat.pos_of_ne_zero hnz))
      have hz' : deliverCount ea = 0 := by omega
      rw [deliverCount_append, destroyCount_append, hz, hz']
      refine ⟨by omega, by omega, fun hmem => ?_⟩
      rcases List.mem_append.mp hmem with hmem | hmem
      · exact absurd hmem hd
      · have := hD2 hmem
        omega

theorem lookup_none_not_mem (n : Nat) :
    ∀ reg : Registry, List.lookup n reg = none → n ∉ reg.map Prod.fst := by
  intro reg
  induction reg with
  | nil => intro _; simp
  | cons e es ih =>
    intro h
    rcases e with ⟨k, v⟩
    by_cases hk : n == k
    · simp [List.lookup, hk] at h
    · simp only [List.lookup, hk] at h
      have hne : ¬(n = k) := fun hc => by simp [hc] at hk
      simp only [List.map, List.mem_cons]
      rintro (hc | hc)
      · exact hne hc
      · exact ih h hc

/-! ### Claims -/

/-- C1: for every request of every variant (write family and read) and every
automaton state, a single entry of `complete(r)` delivers to the completion
sink exactly as often as it destroys the request and at most once — including
the write GUARD/COPYUP error paths that re-enter `complete` with state ERROR
and then return not-finished — and over a whole lifetime (callbacks re-enter
`complete` until a call destroys the request) at most one delivery occurs, and
exactly one if the request is destroyed. -/
theorem claim_C1_exactly_one_delivery :
    (∀ fuel ictx req reg r out,
        AbstractAioObjectWrite.complete fuel ictx req reg r = some out →
        deliverCount out.2.2 = destroyCount out.2.2 ∧ deliverCount out.2.2 ≤ 1) ∧
    (∀ fuel ictx req reg rs trace,
        writeRun fuel ictx req reg rs = some trace →
        deliverCount trace ≤ 1 ∧ (Effect.Destroy ∈ trace → deliverCount trace = 1)) ∧
    (∀ ictx req reg r,
        deliverCount (AioObjectRead.complete ictx req reg r).2.2 =
          destroyCount (AioObjectRead.complete ictx req reg r).2.2 ∧
        deliverCount (AioObjectRead.complete ictx req reg r).2.2 ≤ 1) ∧
    (∀ ictx req reg rs,
        deliverCount (readRun ictx req reg rs) ≤ 1 ∧
        (Effect.Destroy ∈ readRun ictx req reg rs →
          deliverCount (readRun ictx req reg rs) = 1)) := by
  refine ⟨?_, ?_, ?_, ?_⟩
  · intro fuel ictx req reg r out h
    exact (complete_counts fuel ictx req reg r).1 out h
  · intro fuel ictx req reg rs trace h
    obtain ⟨h1, h2, h3⟩ := writeRun_counts fuel ictx rs req reg trace h
    exact ⟨h2, h3⟩
  · intro ictx req reg r
    exact read_complete_counts ictx req reg r
  · intro ictx req reg rs
    obtain ⟨h1, h2, h3⟩ := readRun_counts ictx rs req reg
    exact ⟨h2, h3⟩

theorem claim_C1_exactly_one_delivery_witness :
    deliverCount [Effect.Deliver (-5), Effect.Destroy] ≤ 1 ∧
    (Effect.Destroy ∈ [Effect.Deliver (-5), Effect.Destroy] →
      deliverCount [Effect.Deliver (-5), Effect.Destroy] = 1) :=
  claim_C1_exactly_one_delivery.2.1 10 testCtx testGuardReq [] [(-5 : Int)]
    [Effect.Deliver (-5), Effect.Destroy] (by decide)

theorem append_waiter_keys (n : Nat) (job : CopyupRequest) :
    ∀ reg : Registry,
      ((reg.map fun e =>
          if e.1 == n then (e.1, { job with pending := job.pending + 1 }) else e).map
        Prod.fst) = reg.map Prod.fst := by
  intro reg
  induction reg with
  | nil => simp
  | cons e es ih =>
    simp only [List.map_cons, ih]
    congr 1
    split <;> simp

/-- C2: at most one live copyup job per object_no: both `send_copyup` paths
preserve uniqueness of the registry keys; when no job is registered a single
new job is created with the request's moved parent extents, inserted, and
sent; when a job exists, the write path appends the waiter and the read path
does nothing — in either case without issuing any work. -/
theorem claim_C2_at_most_one_copyup_job :
    ∀ (req : WriteReq) (rreq : ReadReq) (ictx : ImageCtxView) (reg : Registry),
      ((reg.map Prod.fst).Nodup →
        ((AbstractAioObjectWrite.send_copyup req reg).2.1.map Prod.fst).Nodup ∧
        ((AioObjectRead.send_copyup ictx rreq reg).2.1.map Prod.fst).Nodup) ∧
      (List.lookup req.object_no reg = none →
        (AbstractAioObjectWrite.send_copyup req reg).2.1 =
          (req.object_no, ⟨req.oid, req.object_no, req.parent_extents, 1⟩) :: reg ∧
        (AbstractAioObjectWrite.send_copyup req reg).2.2 =
          [.CopyupSend req.object_no] ∧
        (AbstractAioObjectWrite.send_copyup req reg).1.parent_extents = []) ∧
      (∀ job, List.lookup req.object_no reg = some job →
        (AbstractAioObjectWrite.send_copyup req reg).2.1.map Prod.fst =
          reg.map Prod.fst ∧
        (AbstractAioObjectWrite.send_copyup req reg).2.2 = [] ∧
        (∀ e ∈ (AbstractAioObjectWrite.send_copyup req reg).2.1,
          e.1 = req.object_no → e.2.pending = job.pending + 1)) ∧
      (∀ job, List.lookup rreq.object_no reg = some job →
        (AioObjectRead.send_copyup ictx rreq reg).2.1 = reg ∧
        (AioObjectRead.send_copyup ictx rreq reg).2.2 = []) ∧
      (List.lookup rreq.object_no reg = none →
        ∀ pe, AioObjectRequest.compute_parent_extents ictx rreq.snap_id
            rreq.parent_extents = (pe, true) →
          (ictx.exclusive_lock_present = false ∨ ictx.is_lock_owner = true) →
          (AioObjectRead.send_copyup ictx rreq reg).2.1 =
            (rreq.object_no, ⟨rreq.oid, rreq.object_no, pe, 0⟩) :: reg ∧
          (AioObjectRead.send_copyup ictx rreq reg).2.2 =
            [.CopyupSend rreq.object_no]) := by
  intro req rreq ictx reg
  refine ⟨?_, ?_, ?_, ?_, ?_⟩
  · intro hnd
    constructor
    · unfold AbstractAioObjectWrite.send_copyup
      dsimp only
      rcases hl : List.lookup req.object_no reg with _ | job
      · dsimp only
        rw [List.map_cons, List.nodup_cons]
        exact ⟨lookup_none_not_mem _ _ hl, hnd⟩
      · dsimp only
        rw [append_waiter_keys]
        exact hnd
    · unfold AioObjectRead.send_copyup
      rcases hc : AioObjectRequest.compute_parent_extents ictx rreq.snap_id
          rreq.parent_extents with ⟨pe, hasp⟩
      dsimp only
      split
      · exact hnd
      · rcases hl : List.lookup rreq.object_no reg with _ | job
        · dsimp only
          rw [List.map_cons, List.nodup_cons]
          exact ⟨lookup_none_not_mem _ _ hl, hnd⟩
        · exact hnd
  · intro hl
    unfold AbstractAioObjectWrite.send_copyup
    dsimp only
    rw [hl]
    exact ⟨rfl, rfl, rfl⟩
  · intro job hl
    unfold AbstractAioObjectWrite.send_copyup
    dsimp only
    rw [hl]
    dsimp only
    refine ⟨append_waiter_keys _ _ _, rfl, ?_⟩
    intro e he h1
    rcases List.mem_map.mp he with ⟨a, ha, rfl⟩
    by_cases hk : a.1 == req.object_no
    · simp [hk]
    · simp only [hk] at h1 ⊢
      simp only [if_neg (by simp_all)] at h1 ⊢
      exact absurd h1 (by simpa using hk)
  · intro job hl
    unfold AioObjectRead.send_copyup
    rcases hc : AioObjectRequest.compute_parent_extents ictx rreq.snap_id
        rreq.parent_extents with ⟨pe, hasp⟩
    dsimp only
    split
    · exact ⟨rfl, rfl⟩
    · rw [hl]
      exact ⟨rfl, rfl⟩
  · intro hl pe hc hlock
    unfold AioObjectRead.send_copyup
    rw [hc]
    dsimp only
    rw [if_neg]
    · rw [hl]
      exact ⟨rfl, rfl⟩
    · rcases hlock with h | h <;> simp [h]

theorem claim_C2_at_most_one_copyup_job_witness :
    ((AbstractAioObjectWrite.send_copyup testGuardReq []).2.1.map Prod.fst).Nodup ∧
    ((AioObjectRead.send_copyup testCtx testReadReq []).2.1.map Prod.fst).Nodup :=
  (claim_C2_at_most_one_copyup_job testGuardReq testReadReq testCtx []).1 (by decide)

/-- C3: a read schedules a copy-on-read copyup only when all eligibility
conditions held at GUARD time (`clone_copy_on_read`, not `read_only`,
`snap_id = CEPH_NOSNAP`, exclusive lock absent or owned) — the only
transition into COPYUP — and the COPYUP stage issues copyup work only when
the parent read returned `r > 0`; otherwise the read completes without
touching the registry. -/
theorem claim_C3_copy_on_read_conditions :
    ∀ ictx (req : ReadReq) reg r,
      (req.state = .GUARD →
        (AioObjectRead.should_complete ictx req reg r).2.1.state = .COPYUP →
        ictx.clone_copy_on_read = true ∧ ictx.read_only = false ∧
        req.snap_id = CEPH_NOSNAP ∧
        (ictx.exclusive_lock_present = false ∨ ictx.is_lock_owner = true)) ∧
      (∀ n, Effect.CopyupSend n ∈ (AioObjectRead.should_complete ictx req reg r).2.2.2 →
        req.state = .COPYUP ∧ 0 < r) ∧
      (req.state = .COPYUP → ¬0 < r →
        (AioObjectRead.should_complete ictx req reg r).2.2.1 = reg ∧
        (AioObjectRead.should_complete ictx req reg r).2.2.2 = []) := by
  intro ictx req reg r
  refine ⟨?_, ?_, ?_⟩
  · intro hst hcop
    unfold AioObjectRead.should_complete at hcop
    rw [hst] at hcop
    dsimp only at hcop
    repeat' split at hcop
    all_goals try simp at hcop
    all_goals try (rw [hst] at hcop; simp at hcop)
    all_goals
      rename_i hcor
      have hcor' := hcor
      unfold is_copy_on_read at hcor'
      simp only [Bool.and_eq_true, Bool.or_eq_true, Bool.not_eq_true',
        beq_iff_eq] at hcor'
      exact ⟨hcor'.1.1.1, hcor'.1.1.2, hcor'.1.2, hcor'.2⟩
  · intro n hmem
    rcases hst : req.state with _ | _ | _
    · unfold AioObjectRead.should_complete at hmem
      rw [hst] at hmem
      simp at hmem
    · unfold AioObjectRead.should_complete at hmem
      rw [hst] at hmem
      dsimp only at hmem
      repeat' split at hmem
      all_goals simp at hmem
    · unfold AioObjectRead.should_complete at hmem
      rw [hst] at hmem
      dsimp only at hmem
      split at hmem
      · rename_i hr
        exact ⟨rfl, hr⟩
      · simp at hmem
  · intro hst hr
    unfold AioObjectRead.should_complete
    rw [hst]
    dsimp only
    rw [if_neg hr]
    exact ⟨rfl, rfl⟩

theorem claim_C3_copy_on_read_conditions_witness :
    testCtx.clone_copy_on_read = true ∧ testCtx.read_only = false ∧
    testReadReq.snap_id = CEPH_NOSNAP ∧
    (testCtx.exclusive_lock_present = false ∨ testCtx.is_lock_owner = true) :=
  (claim_C3_copy_on_read_conditions testCtx testReadReq [] (-ENOENT)).1
    (by decide) (by decide)

/-- C4: in state GUARD, `should_complete(r)` calls `handle_write_guard()` and
is not finished when `r = -ENOENT`; for any other negative `r` it moves to
ERROR, re-enters `complete(r)` (delivering `r` and destroying the request) and
returns not-finished; for `r ≥ 0` it delegates to `send_post()`, whose flag
decides finished.  `handle_write_guard()` recomputes the parent extents and
calls `send_copyup()` when any remain, else `send_write()`. -/
theorem claim_C4_guard_dispatch :
    ∀ fuel ictx (req : WriteReq) reg r, req.state = .GUARD →
      (r = -ENOENT →
        ∀ out, AbstractAioObjectWrite.handle_write_guard fuel ictx req reg = some out →
          AbstractAioObjectWrite.should_complete (fuel + 1) ictx req reg r =
            some (false, out.1, out.2.1, out.2.2)) ∧
      (r < 0 → r ≠ -ENOENT →
        AbstractAioObjectWrite.should_complete (fuel + 3) ictx req reg r =
          some (false, { req with state := .ERROR }, reg, [.Deliver r, .Destroy])) ∧
      (0 ≤ r →
        AbstractAioObjectWrite.should_complete (fuel + 1) ictx req reg r =
          some ((AbstractAioObjectWrite.send_post ictx req).1,
            (AbstractAioObjectWrite.send_post ictx req).2.1, reg,
            (AbstractAioObjectWrite.send_post ictx req).2.2)) ∧
      (∀ pe, AioObjectRequest.compute_parent_extents ictx req.snap_id
          req.parent_extents = (pe, true) →
        AbstractAioObjectWrite.handle_write_guard (fuel + 1) ictx req reg =
          some (AbstractAioObjectWrite.send_copyup
            { req with parent_extents := pe } reg)) ∧
      (∀ pe, AioObjectRequest.compute_parent_extents ictx req.snap_id
          req.parent_extents = (pe, false) →
        AbstractAioObjectWrite.handle_write_guard (fuel + 1) ictx req reg =
          send_write_dispatch fuel ictx { req with parent_extents := pe } reg) := by
  intro fuel ictx req reg r hst
  refine ⟨?_, ?_, ?_, ?_, ?_⟩
  · intro hr out h
    rw [AbstractAioObjectWrite.should_complete, hst]
    dsimp only
    rw [if_pos (by simp [hr])]
    rw [h]
    rfl
  · intro hneg hne
    rw [AbstractAioObjectWrite.should_complete, hst]
    dsimp only
    rw [if_neg (by simp [hne]), if_pos hneg]
    rw [AbstractAioObjectWrite.complete]
    rw [AbstractAioObjectWrite.should_complete]
    dsimp only
    simp only [Bind.bind, Option.bind]
    have : ({ req with state := .ERROR } : WriteReq).hide_enoent = req.hide_enoent := rfl
    simp [hne]
  · intro hr
    rw [AbstractAioObjectWrite.should_complete, hst]
    dsimp only
    rw [if_neg (by simp [ENOENT]; omega), if_neg (by omega)]
  · intro pe hc
    rw [AbstractAioObjectWrite.handle_write_guard, hc]
    simp
  · intro pe hc
    rw [AbstractAioObjectWrite.handle_write_guard, hc]
    simp

theorem claim_C4_guard_dispatch_witness :
    AbstractAioObjectWrite.should_complete 3 testCtx testGuardReq [] (-5) =
      some (false, { testGuardReq with state := .ERROR }, [],
        [.Deliver (-5), .Destroy]) :=
  ((claim_C4_guard_dispatch 0 testCtx testGuardReq [] (-5) (by decide)).2.1
    (by decide) (by decide))

/-- C5: a Write covering the whole object with no parent is submitted via
`send_write_op(false)`: the batch carries no `assert_exists` precondition,
uses `write_full`, and the request is left in state FLAT. -/
theorem claim_C5_full_object_write_unguarded :
    ∀ fuel ictx (req : WriteReq) reg,
      req.variant = .Write → req.object_off = 0 → req.object_len = ictx.object_size →
      req.parent_extents = [] → req.m_write = [] →
      ∀ out, send_write_dispatch (fuel + 1) ictx req reg = some out →
        out.2.2 = [.SubmitWriteOp out.1.m_write req.snap_seq req.snaps] ∧
        WriteOp.assert_exists ∉ out.1.m_write ∧
        WriteOp.write_full ∈ out.1.m_write ∧
        out.1.state = .FLAT := by
  intro fuel ictx req reg hv hoff hlen hpe hmw out h
  rw [send_write_dispatch, hv] at h
  dsimp only at h
  rw [if_pos (by simp [WriteReq.has_parent, hpe, hoff, hlen])] at h
  rcases hw : AbstractAioObjectWrite.send_write_op ictx req false with ⟨ra, ea⟩
  rw [hw] at h
  injection h with h
  subst h
  dsimp only
  have h1 : ra = (AbstractAioObjectWrite.send_write_op ictx req false).1 := by rw [hw]
  have h2 : ea = (AbstractAioObjectWrite.send_write_op ictx req false).2 := by rw [hw]
  subst h1
  subst h2
  refine ⟨by simp [AbstractAioObjectWrite.send_write_op], ?_, ?_, ?_⟩
  · simp [AbstractAioObjectWrite.send_write_op, add_write_ops_dispatch,
      AioObjectWrite.add_write_ops, hv, hmw, hoff, hlen]
  · simp [AbstractAioObjectWrite.send_write_op, add_write_ops_dispatch,
      AioObjectWrite.add_write_ops, hv, hmw, hoff, hlen]
  · simp [AbstractAioObjectWrite.send_write_op]

theorem claim_C5_full_object_write_unguarded_witness :
    [Effect.SubmitWriteOp [.write_full, .set_op_flags2 0] 0 []] =
      [Effect.SubmitWriteOp
        testWriteDone.m_write testWriteReq.snap_seq testWriteReq.snaps] ∧
    WriteOp.assert_exists ∉ testWriteDone.m_write ∧
    WriteOp.write_full ∈ testWriteDone.m_write ∧
    testWriteDone.state = .FLAT := by
  have h := claim_C5_full_object_write_unguarded 9 testCtx testWriteReq []
    (by decide) (by decide) (by decide) (by decide) (by decide)
    (testWriteDone, [],
      [Effect.SubmitWriteOp [.write_full, .set_op_flags2 0] 0 []]) (by decide)
  exact h

theorem deliver_mem_pos (s : Int) :
    ∀ effs, Effect.Deliver s ∈ effs → 0 < deliverCount effs := by
  intro effs h
  induction effs with
  | nil => simp at h
  | cons e es ih =>
    rcases List.mem_cons.mp h with h | h
    · simp [deliverCount, ← h, isDeliver]
    · have := ih h
      simp only [deliverCount]
      omega

theorem send_write_op_preserves_hide (ictx : ImageCtxView) (req : WriteReq) (g : Bool) :
    (AbstractAioObjectWrite.send_write_op ictx req g).1.hide_enoent = req.hide_enoent := by
  unfold AbstractAioObjectWrite.send_write_op guard_write_dispatch
    AioObjectRemove.guard_write AbstractAioObjectWrite.guard_write
  dsimp only
  repeat' split
  all_goals rfl

theorem send_copyup_preserves_hide (req : WriteReq) (reg : Registry) :
    (AbstractAioObjectWrite.send_copyup req reg).1.hide_enoent = req.hide_enoent := by
  unfold AbstractAioObjectWrite.send_copyup
  dsimp only
  rcases List.lookup req.object_no reg with _ | it <;> rfl

theorem send_post_preserves_hide (ictx : ImageCtxView) (req : WriteReq) :
    (AbstractAioObjectWrite.send_post ictx req).2.1.hide_enoent = req.hide_enoent := by
  unfold AbstractAioObjectWrite.send_post
  repeat' split
  all_goals rfl

theorem sends_preserve_hide (fuel : Nat) :
    ∀ ictx req reg out,
      (AbstractAioObjectWrite.send_write fuel ictx req reg = some out →
        out.1.hide_enoent = req.hide_enoent) ∧
      (send_write_dispatch fuel ictx req reg = some out →
        out.1.hide_enoent = req.hide_enoent) ∧
      (AbstractAioObjectWrite.handle_write_guard fuel ictx req reg = some out →
        out.1.hide_enoent = req.hide_enoent) := by
  induction fuel with
  | zero =>
    intro ictx req reg out
    refine ⟨?_, ?_, ?_⟩ <;>
      · intro h
        simp [AbstractAioObjectWrite.send_write, send_write_dispatch,
          AbstractAioObjectWrite.handle_write_guard] at h
  | succ fuel ih =>
    intro ictx req reg out
    refine ⟨?_, ?_, ?_⟩
    · intro h
      rw [AbstractAioObjectWrite.send_write] at h
      split at h
      · exact (ih ictx { req with state := .GUARD } reg out).2.2 h
      · rcases hw : AbstractAioObjectWrite.send_write_op ictx req true with ⟨ra, ea⟩
        rw [hw] at h
        injection h with h
        subst h
        have := send_write_op_preserves_hide ictx req true
        rw [hw] at this
        exact this
    · intro h
      rw [send_write_dispatch] at h
      rcases hv : req.variant with _ | _ | _ | _ <;> rw [hv] at h <;> dsimp only at h
      · split at h
        · rcases hw : AbstractAioObjectWrite.send_write_op ictx req false with ⟨ra, ea⟩
          rw [hw] at h
          injection h with h
          subst h
          have := send_write_op_preserves_hide ictx req false
          rw [hw] at this
          exact this
        · exact (ih ictx req reg out).1 h
      · exact (ih ictx req reg out).1 h
      · split at h
        · injection h with h
          subst h
          rfl
        · exact (ih ictx req reg out).1 h
      · rcases hw : AbstractAioObjectWrite.send_write_op ictx req true with ⟨ra, ea⟩
        rw [hw] at h
        injection h with h
        subst h
        have := send_write_op_preserves_hide ictx req true
        rw [hw] at this
        exact this
    · intro h
      rw [AbstractAioObjectWrite.handle_write_guard] at h
      split at h
      rename_i pe hasp heq
      split at h
      · injection h with h
        subst h
        exact send_copyup_preserves_hide _ reg
      · dsimp only at h
        exact (ih ictx { req with parent_extents := pe } reg out).2.1 h

/-- Every delivery performed by a `complete(r)` entry carries the
hide_enoent-transformed status of that entry, and neither `complete` nor
`should_complete` changes the request's `hide_enoent`. -/
theorem deliver_payload (fuel : Nat) :
    ∀ ictx req reg r,
      (∀ out, AbstractAioObjectWrite.complete fuel ictx req reg r = some out →
        out.1.hide_enoent = req.hide_enoent ∧
        ∀ s, Effect.Deliver s ∈ out.2.2 →
          s = if req.hide_enoent && r == -ENOENT then 0 else r) ∧
      (∀ out, AbstractAioObjectWrite.should_complete fuel ictx req reg r = some out →
        out.2.1.hide_enoent = req.hide_enoent ∧
        ∀ s, Effect.Deliver s ∈ out.2.2.2 →
          s = if req.hide_enoent && r == -ENOENT then 0 else r) := by
  induction fuel with
  | zero =>
    intro ictx req reg r
    constructor <;> intro out h <;>
      simp [AbstractAioObjectWrite.complete, AbstractAioObjectWrite.should_complete] at h
  | succ fuel ih =>
    intro ictx req reg r
    constructor
    · intro out h
      rw [AbstractAioObjectWrite.complete] at h
      rcases hsc : AbstractAioObjectWrite.should_complete fuel ictx req reg r with
        _ | ⟨fin, req', reg', effs⟩ <;> rw [hsc] at h <;>
        simp only [Bind.bind, Option.bind] at h
      · exact Option.noConfusion h
      · obtain ⟨hhide, hpay⟩ := (ih ictx req reg r).2 (fin, req', reg', effs) hsc
        dsimp only at hhide hpay
        split at h <;> injection h with h <;> subst h <;> dsimp only
        · refine ⟨hhide, ?_⟩
          intro s hs
          rcases List.mem_append.mp hs with hs | hs
          · exact hpay s hs
          · rcases List.mem_cons.mp hs with hs | hs
            · rw [hhide] at hs
              exact (Effect.Deliver.injEq .. ▸ hs).symm ▸ rfl
            · simp at hs
        · exact ⟨hhide, hpay⟩
    · intro out h
      rw [AbstractAioObjectWrite.should_complete] at h
      rcases hst : req.state with _ | _ | _ | _ | _ | _ <;> rw [hst] at h <;>
        dsimp only at h
      · -- FLAT
        rcases hp : AbstractAioObjectWrite.send_post ictx req with ⟨fin0, req0, effs0⟩
        rw [hp] at h
        injection h with h
        subst h
        have hc := send_post_clean ictx req
        have hh := send_post_preserves_hide ictx req
        rw [hp] at hc hh
        dsimp only at hc hh ⊢
        refine ⟨hh, fun s hs => absurd (deliver_mem_pos s _ hs) (by omega)⟩
      · -- GUARD
        split at h
        · rcases hw : AbstractAioObjectWrite.handle_write_guard fuel ictx req reg with
            _ | ⟨ra, ga, ea⟩ <;> rw [hw] at h <;> simp only [Bind.bind, Option.bind] at h
          · exact Option.noConfusion h
          · injection h with h
            subst h
            have hc := ((sends_clean fuel) ictx req reg (ra, ga, ea)).2.2 hw
            have hh := ((sends_preserve_hide fuel) ictx req reg (ra, ga, ea)).2.2 hw
            dsimp only at hc hh ⊢
            refine ⟨hh, fun s hs => absurd (deliver_mem_pos s _ hs) (by omega)⟩
        · split at h
          · rcases hc : AbstractAioObjectWrite.complete fuel ictx
                { req with state := .ERROR } reg r with _ | ⟨ra, ga, ea⟩ <;>
              rw [hc] at h <;> simp only [Bind.bind, Option.bind] at h
            · exact Option.noConfusion h
            · injection h with h
              subst h
              obtain ⟨hhide, hpay⟩ :=
                (ih ictx { req with state := .ERROR } reg r).1 (ra, ga, ea) hc
              exact ⟨hhide, hpay⟩
          · rcases hp : AbstractAioObjectWrite.send_post ictx req with ⟨fin0, req0, effs0⟩
            rw [hp] at h
            injection h with h
            subst h
            have hc := send_post_clean ictx req
            have hh := send_post_preserves_hide ictx req
            rw [hp] at hc hh
            dsimp only at hc hh ⊢
            refine ⟨hh, fun s hs => absurd (deliver_mem_pos s _ hs) (by omega)⟩
      · -- COPYUP
        split at h
        · rcases hc : AbstractAioObjectWrite.complete fuel ictx
              { req with state := .ERROR } reg r with _ | ⟨ra, ga, ea⟩ <;>
            rw [hc] at h <;> simp only [Bind.bind, Option.bind] at h
          · exact Option.noConfusion h
          · injection h with h
            subst h
            obtain ⟨hhide, hpay⟩ :=
              (ih ictx { req with state := .ERROR } reg r).1 (ra, ga, ea) hc
            exact ⟨hhide, hpay⟩
        · rcases hp : AbstractAioObjectWrite.send_post ictx req with ⟨fin0, req0, effs0⟩
          rw [hp] at h
          injection h with h
          subst h
          have hc := send_post_clean ictx req
          have hh := send_post_preserves_hide ictx req
          rw [hp] at hc hh
          dsimp only at hc hh ⊢
          refine ⟨hh, fun s hs => absurd (deliver_mem_pos s _ hs) (by omega)⟩
      · -- PRE
        split at h
        · injection h with h
          subst h
          exact ⟨rfl, by simp⟩
        · rcases hd : send_write_dispatch fuel ictx req reg with _ | ⟨ra, ga, ea⟩ <;>
            rw [hd] at h <;> simp only [Bind.bind, Option.bind] at h
          · exact Option.noConfusion h
          · injection h with h
            subst h
            have hc := ((sends_clean fuel) ictx req reg (ra, ga, ea)).2.1 hd
            have hh := ((sends_preserve_hide fuel) ictx req reg (ra, ga, ea)).2.1 hd
            dsimp only at hc hh ⊢
            refine ⟨hh, fun s hs => absurd (deliver_mem_pos s _ hs) (by omega)⟩
      · -- POST
        injection h with h
        subst h
        exact ⟨rfl, by simp⟩
      · -- ERROR
        injection h with h
        subst h
        exact ⟨rfl, by simp⟩

/-- C6: with `hide_enoent = true`, the status delivered by `complete(r)` is
never `-ENOENT`: a terminal `-ENOENT` is rewritten to `0` immediately before
delivery, and every other negative terminal status is delivered unchanged. -/
theorem claim_C6_hide_enoent :
    ∀ fuel ictx (req : WriteReq) reg r out,
      AbstractAioObjectWrite.complete fuel ictx req reg r = some out →
      (req.hide_enoent = true → ∀ s, Effect.Deliver s ∈ out.2.2 → s ≠ -ENOENT) ∧
      (r = -ENOENT → req.hide_enoent = true →
        ∀ s, Effect.Deliver s ∈ out.2.2 → s = 0) ∧
      (r < 0 → r ≠ -ENOENT → ∀ s, Effect.Deliver s ∈ out.2.2 → s = r) := by
  intro fuel ictx req reg r out h
  have hpay := ((deliver_payload fuel ictx req reg r).1 out h).2
  refine ⟨?_, ?_, ?_⟩
  · intro hh s hs
    rw [hpay s hs]
    by_cases hr : r = -ENOENT
    · simp [hh, hr, ENOENT]
    · simp [hr]
  · intro hr hh s hs
    rw [hpay s hs]
    simp [hr, hh]
  · intro h1 h2 s hs
    rw [hpay s hs]
    simp [h2]

theorem claim_C6_hide_enoent_witness :
    AbstractAioObjectWrite.complete 2 testCtx { testTruncReq with state := .POST }
        [] (-ENOENT) =
      some ({ testTruncReq with state := .POST }, [],
        [Effect.Deliver 0, Effect.Destroy]) ∧ (0 : Int) = 0 :=
  ⟨by decide,
    (claim_C6_hide_enoent 2 testCtx { testTruncReq with state := .POST } []
      (-ENOENT)
      ({ testTruncReq with state := .POST }, [], [Effect.Deliver 0, Effect.Destroy])
      (by decide)).2.1 (by decide) (by decide) 0 (by decide)⟩

/-- C7: a read `send()` first consults the object map: if present and the
object may not exist, only a deferred `-ENOENT` work-queue callback is issued
and no object-store read; otherwise exactly one sparse-or-dense read of
`[object_off, object_len)` is submitted with `set_op_flags2(op_flags)` and the
snap-aware read flags. -/
theorem claim_C7_read_send :
    ∀ ictx (req : ReadReq),
      (ictx.object_map_present = true → ictx.object_may_exist req.object_no = false →
        AioObjectRead.send ictx req = [.QueueCallback (-ENOENT)]) ∧
      (ictx.object_map_present = false ∨ ictx.object_may_exist req.object_no = true →
        AioObjectRead.send ictx req =
          [.SubmitRead req.object_off req.object_len req.sparse req.op_flags
            (ictx.get_read_flags req.snap_id)]) := by
  intro ictx req
  constructor
  · intro h1 h2
    unfold AioObjectRead.send
    rw [if_pos (by simp [h1, h2])]
  · intro h
    unfold AioObjectRead.send
    rw [if_neg]
    rcases h with h | h <;> simp [h]

theorem claim_C7_read_send_witness :
    AioObjectRead.send testCtxMap testReadReq = [.QueueCallback (-ENOENT)] :=
  (claim_C7_read_send testCtxMap testReadReq).1 (by decide) (by decide)

/-- C8: a Truncate of a nonexistent object with no parent performs no
object-store submission: it sets state FLAT and queues a success callback on
the work queue, and the subsequent `complete(0)` delivers status 0. -/
theorem claim_C8_truncate_short_circuit :
    ∀ fuel ictx (req : WriteReq) reg,
      req.variant = .Truncate → req.object_exist = false → req.parent_extents = [] →
      send_write_dispatch (fuel + 1) ictx req reg =
        some ({ req with state := .FLAT }, reg, [.QueueCallback 0]) ∧
      (∀ out, AbstractAioObjectWrite.complete fuel ictx { req with state := .FLAT }
          reg 0 = some out → ∀ s, Effect.Deliver s ∈ out.2.2 → s = 0) := by
  intro fuel ictx req reg hv he hpe
  constructor
  · rw [send_write_dispatch, hv]
    dsimp only
    rw [if_pos (by simp [WriteReq.has_parent, hpe, he])]
  · intro out h s hs
    have := ((deliver_payload fuel ictx { req with state := .FLAT } reg 0).1 out h).2 s hs
    rw [this]
    simp [ENOENT]

theorem claim_C8_truncate_short_circuit_witness :
    send_write_dispatch 3 testCtx testTruncReq [] =
      some ({ testTruncReq with state := .FLAT }, [], [.QueueCallback 0]) :=
  (claim_C8_truncate_short_circuit 2 testCtx testTruncReq []
    (by decide) (by decide) (by decide)).1

/-- C9: when `get_parent_overlap` fails, `compute_parent_extents` clears the
extent list and returns false, and a guarded write hitting this failure simply
re-sends the original write (with "no parent"), delivering no error. -/
theorem claim_C9_overlap_failure :
    ∀ ictx snap (pe : Extents) fuel (req : WriteReq) reg,
      ((ictx.get_parent_overlap snap).1 < 0 →
        AioObjectRequest.compute_parent_extents ictx snap pe = ([], false)) ∧
      ((ictx.get_parent_overlap req.snap_id).1 < 0 →
        AbstractAioObjectWrite.handle_write_guard (fuel + 1) ictx req reg =
          send_write_dispatch fuel ictx { req with parent_extents := [] } reg ∧
        ∀ out, AbstractAioObjectWrite.handle_write_guard (fuel + 1) ictx req reg =
            some out → deliverCount out.2.2 = 0) := by
  intro ictx snap pe fuel req reg
  have hcpe : ∀ sn (l : Extents), (ictx.get_parent_overlap sn).1 < 0 →
      AioObjectRequest.compute_parent_extents ictx sn l = ([], false) := by
    intro sn l h
    unfold AioObjectRequest.compute_parent_extents
    rcases hg : ictx.get_parent_overlap sn with ⟨rv, ov⟩
    rw [hg] at h
    dsimp only at h ⊢
    rw [if_pos h]
  constructor
  · exact hcpe snap pe
  · intro h
    have heq : AbstractAioObjectWrite.handle_write_guard (fuel + 1) ictx req reg =
        send_write_dispatch fuel ictx { req with parent_extents := [] } reg := by
      rw [AbstractAioObjectWrite.handle_write_guard,
        hcpe req.snap_id req.parent_extents h]
      simp
    refine ⟨heq, ?_⟩
    intro out hout
    exact (((sends_clean fuel) ictx { req with parent_extents := [] } reg out).2.1
      (heq ▸ hout)).1

theorem claim_C9_overlap_failure_witness :
    AioObjectRequest.compute_parent_extents testCtxNoParent CEPH_NOSNAP
      [(0, 4096)] = ([], false) :=
  (claim_C9_overlap_failure testCtxNoParent CEPH_NOSNAP [(0, 4096)] 0
    testWriteReq []).1 (by decide)

/-- C10: a read in GUARD receiving its first `-ENOENT`: if the parent pointer
is non-null but the recomputed extents prune to zero object overlap,
`should_complete` finishes with state still GUARD, issues no parent read, and
the request completes with `-ENOENT`; only a null parent pointer moves the
state to FLAT and returns not-finished. -/
theorem claim_C10_read_guard_enoent :
    ∀ ictx (req : ReadReq) reg,
      req.state = .GUARD → req.tried_parent = false →
      (∀ pov, ictx.parent_present = true →
        ictx.get_parent_overlap req.snap_id = (0, pov) →
        (ictx.prune_parent_extents
          (ictx.extent_to_file req.object_no req.object_off req.object_len) pov).2 = 0 →
        AioObjectRead.should_complete ictx req reg (-ENOENT) = (true, req, reg, []) ∧
        AioObjectRead.complete ictx req reg (-ENOENT) =
          (req, reg, [.Deliver (-ENOENT), .Destroy])) ∧
      (ictx.parent_present = false →
        AioObjectRead.should_complete ictx req reg (-ENOENT) =
          (false, { req with state := .FLAT }, reg, [])) := by
  intro ictx req reg hst htried
  have hcond : (!req.tried_parent && ((-ENOENT : Int) == -ENOENT)) = true := by
    simp [htried]
  constructor
  · intro pov hpar hov hpr
    have hsc : AioObjectRead.should_complete ictx req reg (-ENOENT) =
        (true, req, reg, []) := by
      unfold AioObjectRead.should_complete
      rw [hst, hov]
      simp [htried, hpar, hpr]
    refine ⟨hsc, ?_⟩
    unfold AioObjectRead.complete
    rw [hsc]
    rfl
  · intro hpar
    unfold AioObjectRead.should_complete
    rw [hst]
    dsimp only
    rw [if_pos hcond, if_pos (by simp [hpar])]

theorem claim_C10_read_guard_enoent_witness :
    AioObjectRead.should_complete testCtxNoParent testReadReq [] (-ENOENT) =
      (false, { testReadReq with state := .FLAT }, [], []) :=
  (claim_C10_read_guard_enoent testCtxNoParent testReadReq []
    (by decide) (by decide)).2 (by decide)

end Librbd
